import Mathlib

/-!
# PowerGuard anomaly-scoring engine: a verification development

Shallow embedding of the PowerGuard electricity-theft detection system.
The repository ships the React dashboard (`frontend/src/...`) and the API
client; the scoring engine itself (FastAPI backend) is an external
collaborator described by the specification, so the engine components below
are modelled from the spec, while the dashboard components (`RiskBadge`,
result rendering) are translated directly from the frontend source.

Scores and consumption values are modelled as exact rationals (`ℚ`): the
spec's arithmetic (min-max scaling, threshold comparison, ratio of sums) is
exact, and `ℚ` makes every predicate decidable and every definition
executable.
-/

namespace PowerGuard

/-- Risk tier of a scored meter (spec §3 data model, `risk_level` enum). -/
inductive RiskLevel where
  | low
  | medium
  | high
  | critical
deriving Repr, DecidableEq

/-- Modelled from the spec (§4.4 RiskClassifier, missing from the shipped
sources): deterministic closed-left brackets on the normalized score —
`[0.75, 1.0]` critical, `[0.50, 0.75)` high, `[0.25, 0.50)` medium,
`[0.0, 0.25)` low. -/
def classifyRisk (s : ℚ) : RiskLevel :=
  if 3/4 ≤ s then .critical
  else if 1/2 ≤ s then .high
  else if 1/4 ≤ s then .medium
  else .low

/-- Modelled from the spec (§4.4): the suspicious flag compares the
normalized score against the configured run threshold, independently of the
tier brackets. -/
def isSuspicious (score threshold : ℚ) : Bool :=
  threshold ≤ score

/-- Modelled from the spec (§4.4, §6): the run threshold defaults to 0.5
(also the frontend `Settings` default `anomalyThreshold: 0.5`). -/
def defaultThreshold : ℚ := 1/2

/-- Minimum of a batch of raw scores (empty batch conventionally 0). -/
def batchMin : List ℚ → ℚ
  | [] => 0
  | r :: rs => rs.foldl min r

/-- Maximum of a batch of raw scores (empty batch conventionally 0). -/
def batchMax : List ℚ → ℚ
  | [] => 0
  | r :: rs => rs.foldl max r

/-- Modelled from the spec (§4.3 ScoreNormalizer, missing from the shipped
sources): min-max scaling within the current batch — the batch minimum maps
to 0, the maximum to 1, all others interpolate linearly; a singleton batch
or an all-equal batch normalizes to 0.0 everywhere (no division by zero). -/
def normalizeScores (raw : List ℚ) : List ℚ :=
  let mn := batchMin raw
  let mx := batchMax raw
  if mx = mn then raw.map (fun _ => 0)
  else raw.map (fun x => (x - mn) / (mx - mn))

/- ### Helper lemmas on batch min / max -/

theorem foldl_min_le_init (rs : List ℚ) (a : ℚ) : rs.foldl min a ≤ a := by
  induction rs generalizing a with
  | nil => simp
  | cons r rs ih =>
    calc (r :: rs).foldl min a = rs.foldl min (min a r) := rfl
    _ ≤ min a r := ih _
    _ ≤ a := min_le_left _ _

theorem foldl_min_le_mem (rs : List ℚ) (a x : ℚ) (hx : x ∈ rs) :
    rs.foldl min a ≤ x := by
  induction rs generalizing a with
  | nil => cases hx
  | cons r rs ih =>
    rcases List.mem_cons.mp hx with h | h
    · subst h
      calc (x :: rs).foldl min a = rs.foldl min (min a x) := rfl
      _ ≤ min a x := foldl_min_le_init _ _
      _ ≤ x := min_le_right _ _
    · exact ih _ h

theorem init_le_foldl_max (rs : List ℚ) (a : ℚ) : a ≤ rs.foldl max a := by
  induction rs generalizing a with
  | nil => simp
  | cons r rs ih =>
    calc a ≤ max a r := le_max_left _ _
    _ ≤ rs.foldl max (max a r) := ih _
    _ = (r :: rs).foldl max a := rfl

theorem mem_le_foldl_max (rs : List ℚ) (a x : ℚ) (hx : x ∈ rs) :
    x ≤ rs.foldl max a := by
  induction rs generalizing a with
  | nil => cases hx
  | cons r rs ih =>
    rcases List.mem_cons.mp hx with h | h
    · subst h
      calc x ≤ max a x := le_max_right _ _
      _ ≤ rs.foldl max (max a x) := init_le_foldl_max _ _
    · exact ih _ h

theorem batchMin_le_mem (raw : List ℚ) (x : ℚ) (hx : x ∈ raw) :
    batchMin raw ≤ x := by
  cases raw with
  | nil => cases hx
  | cons r rs =>
    rcases List.mem_cons.mp hx with h | h
    · subst h; exact foldl_min_le_init _ _
    · exact foldl_min_le_mem _ _ _ h

theorem mem_le_batchMax (raw : List ℚ) (x : ℚ) (hx : x ∈ raw) :
    x ≤ batchMax raw := by
  cases raw with
  | nil => cases hx
  | cons r rs =>
    rcases List.mem_cons.mp hx with h | h
    · subst h; exact init_le_foldl_max _ _
    · exact mem_le_foldl_max _ _ _ h

theorem normalizeScores_mem_unit (raw : List ℚ) (y : ℚ)
    (hy : y ∈ normalizeScores raw) : 0 ≤ y ∧ y ≤ 1 := by
  unfold normalizeScores at hy
  by_cases h : batchMax raw = batchMin raw
  · rw [if_pos h] at hy
    obtain ⟨x, _, hxy⟩ := List.mem_map.mp hy
    subst hxy; exact ⟨le_refl 0, by norm_num⟩
  · rw [if_neg h] at hy
    obtain ⟨x, hx, hxy⟩ := List.mem_map.mp hy
    have hmn : batchMin raw ≤ x := batchMin_le_mem raw x hx
    have hmx : x ≤ batchMax raw := mem_le_batchMax raw x hx
    have hlt : 0 < batchMax raw - batchMin raw := by
      have hle : batchMin raw ≤ batchMax raw := le_trans hmn hmx
      rcases lt_or_eq_of_le hle with hlt | heq
      · linarith
      · exact absurd heq.symm h
    subst hxy
    constructor
    · exact div_nonneg (by linarith) (le_of_lt hlt)
    · rw [div_le_one hlt]; linarith

theorem normalizeScores_length (raw : List ℚ) :
    (normalizeScores raw).length = raw.length := by
  unfold normalizeScores
  by_cases h : batchMax raw = batchMin raw <;> simp [h]

/- ### Readings and the feature extractor -/

/-- One timestamped consumption measurement (spec §3 `Reading`).
Timestamps are naive local time at hourly resolution, modelled as whole
hours since an epoch that falls at 00:00 on a Monday; the meter id is kept
at the orchestration layer. -/
structure Reading where
  timestamp : Nat
  consumption_kwh : ℚ
deriving Repr, DecidableEq

/-- Hour of day of a reading (0–23). -/
def Reading.hour (r : Reading) : Nat := r.timestamp % 24

/-- Calendar day index of a reading. -/
def Reading.day (r : Reading) : Nat := r.timestamp / 24

/-- Day of week, 0 = Monday … 5 = Saturday, 6 = Sunday. -/
def Reading.weekday (r : Reading) : Nat := r.timestamp / 24 % 7

/-- Modelled from the spec (§4.1): configured minimum reading count, 24. -/
def minReadings : Nat := 24

/-- Modelled from the spec (§4.1): default night window 00:00–06:00. -/
def nightHours : List Nat := [0, 1, 2, 3, 4, 5]

/-- Modelled from the spec (§4.1): the default peak window is "a fixed set
of peak hours" left to configuration; fixed here as the evening hours
18:00–23:00. None of the verified properties depend on the choice. -/
def peakHours : List Nat := [18, 19, 20, 21, 22]

/-- Fixed-schema feature vector (spec §3 `FeatureVector`). -/
structure FeatureVector where
  hourly_avg : ℚ
  daily_variance : ℚ
  night_ratio : ℚ
  peak_ratio : ℚ
  weekend_ratio : ℚ
deriving Repr, DecidableEq

/-- Per-meter failure taxonomy of the extractor (spec §7). -/
inductive FeatureError where
  | insufficientData
deriving Repr, DecidableEq

/-- Total consumption of a reading sequence. -/
def totalConsumption (rs : List Reading) : ℚ :=
  (rs.map Reading.consumption_kwh).sum

/-- Consumption of the readings selected by a predicate. -/
def consumptionWhere (p : Reading → Bool) (rs : List Reading) : ℚ :=
  ((rs.filter p).map Reading.consumption_kwh).sum

/-- Fraction of total consumption falling on readings selected by `p`;
defined as 0 when total consumption is 0 (spec §4.1: not NaN, not an
error — in this exact-rational model no NaN exists, and the zero total is
handled by the explicit branch). -/
def consumptionRatio (p : Reading → Bool) (rs : List Reading) : ℚ :=
  let total := totalConsumption rs
  if total = 0 then 0 else consumptionWhere p rs / total

/-- Per-day total consumption, one entry per calendar day present. -/
def dailyTotals (rs : List Reading) : List ℚ :=
  ((rs.map Reading.day).dedup).map
    (fun d => ((rs.filter (fun r => r.day == d)).map Reading.consumption_kwh).sum)

/-- Population variance of a list of rationals (0 on the empty list, since
`x / 0 = 0` in `ℚ`). -/
def variance (xs : List ℚ) : ℚ :=
  let n : ℚ := xs.length
  let mean := xs.sum / n
  (xs.map (fun x => (x - mean) ^ 2)).sum / n

/-- Modelled from the spec (§4.1 FeatureExtractor, missing from the shipped
sources): fails with `InsufficientDataError` below `minReadings` readings,
otherwise computes the five-feature summary — mean consumption, variance of
per-day totals, and the night / peak / weekend consumption ratios. -/
def extractFeatures (rs : List Reading) : Except FeatureError FeatureVector :=
  if rs.length < minReadings then .error .insufficientData
  else
    .ok
      { hourly_avg := totalConsumption rs / (rs.length : ℚ)
        daily_variance := variance (dailyTotals rs)
        night_ratio := consumptionRatio (fun r => r.hour ∈ nightHours) rs
        peak_ratio := consumptionRatio (fun r => r.hour ∈ peakHours) rs
        weekend_ratio := consumptionRatio (fun r => 5 ≤ r.weekday) rs }

/- ### Results, the store and the orchestrator -/

/-- Current scored record for one meter (spec §3 `AnomalyResult`; the
`computed_at` timestamp is orchestration metadata with no constrained
behaviour and is omitted). -/
structure AnomalyResult where
  meter_id : String
  anomaly_score : ℚ
  risk_level : RiskLevel
  is_suspicious : Bool
  explanation : String
  model_used : String
deriving Repr, DecidableEq

/-- Modelled from the spec (§4.5 ExplanationGenerator, missing from the
shipped sources): only the property that explanation tone tracks the
suspicious flag is retained — the z-score feature ranking is irrational
arithmetic outside this model and no verified claim depends on it. -/
def explanationFor (threshold score : ℚ) : String :=
  if score < threshold then "consumption pattern within normal bounds"
  else "anomalous consumption pattern relative to peers"

/-- Assemble one meter's result from its normalized score (spec §4.6). -/
def mkResult (model : String) (threshold : ℚ) (id : String)
    (score : ℚ) : AnomalyResult :=
  { meter_id := id
    anomaly_score := score
    risk_level := classifyRisk score
    is_suspicious := isSuspicious score threshold
    explanation := explanationFor threshold score
    model_used := model }

/-- The external result store, keyed by meter id; spec §6 requires
upsert-by-meter-id, modelled as a list with latest-wins replacement. -/
def upsert (store : List AnomalyResult) (r : AnomalyResult) :
    List AnomalyResult :=
  r :: store.filter (fun s => s.meter_id ≠ r.meter_id)

/-- Write a run's results through to the store, one upsert per meter. -/
def upsertAll (store : List AnomalyResult) (results : List AnomalyResult) :
    List AnomalyResult :=
  results.foldl upsert store

/-- Model identifiers the orchestrator accepts (spec §3 `model` enum; the
frontend model selector offers exactly these two). -/
def knownModels : List String := ["isolation_forest", "autoencoder"]

/-- A detector family: raw scores for a batch of feature vectors, selected
by model identifier. The spec's detectors (§4.2) are floating-point ML
models; the orchestration claims hold for every deterministic scorer, so
the scorer is a parameter rather than a fixed function. -/
def Scorer : Type := String → List FeatureVector → List ℚ

/-- Run-level failure taxonomy (spec §7). -/
inductive DetectionError where
  | unknownModel
  | invalidThreshold
  | emptyBatch
deriving Repr, DecidableEq

/-- Run summary handed back to the caller (spec §6 `RunDetection`). -/
structure RunSummary where
  meters_analyzed : Nat
  suspicious_count : Nat
deriving Repr, DecidableEq

/-- Meters of the requested set whose feature extraction succeeds, paired
with their feature vectors (spec §4.6: failures are skipped, not fatal). -/
def validMeters (meters : List (String × List Reading)) :
    List (String × FeatureVector) :=
  meters.filterMap (fun p =>
    match extractFeatures p.2 with
    | .ok fv => some (p.1, fv)
    | .error _ => none)

/-- The batch of results of one run: score the valid feature vectors,
normalize within the batch, classify, and assemble one result per valid
meter (spec §4.6). -/
def runResults (scorer : Scorer) (model : String) (threshold : ℚ)
    (meters : List (String × List Reading)) : List AnomalyResult :=
  let valid := validMeters meters
  let norm := normalizeScores (scorer model (valid.map Prod.snd))
  (valid.zip norm).map (fun p => mkResult model threshold p.1.1 p.2)

/-- Modelled from the spec (§4.6 DetectionOrchestrator, missing from the
shipped sources): validates the model identifier before any per-meter work,
rejects thresholds outside [0,1], aborts on an empty valid batch, otherwise
writes one result per valid meter (overwrite semantics) and returns the new
store with the run summary. On any error the store argument is untouched
and no result is written. -/
def runDetection (scorer : Scorer) (model : String) (threshold : ℚ)
    (meters : List (String × List Reading)) (store : List AnomalyResult) :
    Except DetectionError (List AnomalyResult × RunSummary) :=
  if ¬ knownModels.contains model then .error .unknownModel
  else if ¬ (0 ≤ threshold ∧ threshold ≤ 1) then .error .invalidThreshold
  else if (validMeters meters).isEmpty then .error .emptyBatch
  else
    let results := runResults scorer model threshold meters
    .ok (upsertAll store results,
      { meters_analyzed := (validMeters meters).length
        suspicious_count := (results.filter (fun r => r.is_suspicious)).length })

/-- Modelled from the spec (§6 `GetResults`): read current results,
optionally filtered to suspicious ones, truncated to `limit`. -/
def getResults (store : List AnomalyResult) (suspicious_only : Bool)
    (limit : Nat) : List AnomalyResult :=
  (if suspicious_only then store.filter (fun r => r.is_suspicious)
   else store).take limit

/-- `GetResults` called with no arguments (spec §6 defaults, mirrored by
the client `anomalyAPI.getResults (suspiciousOnly = false, limit = 100)`). -/
def getResultsDefault (store : List AnomalyResult) : List AnomalyResult :=
  getResults store false 100

/- ### The dashboard's risk badge (frontend/src/components/DataTable.jsx) -/

/-- CSS badge class used by the dashboard badge component. -/
inductive BadgeStyle where
  | danger
  | warning
  | success
deriving Repr, DecidableEq

/-- Label and style of a rendered risk badge. -/
structure BadgeConfig where
  label : String
  cls : BadgeStyle
deriving Repr, DecidableEq

/-- The `levels` lookup table of `RiskBadge` in `DataTable.jsx`. -/
def riskBadgeLevels : List (String × BadgeConfig) :=
  [("critical", ⟨"Critical", .danger⟩),
   ("high", ⟨"High", .danger⟩),
   ("medium", ⟨"Medium", .warning⟩),
   ("low", ⟨"Low", .success⟩)]

/-- Property names a plain JS object literal inherits from
`Object.prototype`: accessing any of them on `levels` yields a truthy
inherited function (or, for `__proto__`, an object), not `undefined`. -/
def objectProtoProps : List String :=
  ["constructor", "hasOwnProperty", "isPrototypeOf", "propertyIsEnumerable",
   "toLocaleString", "toString", "valueOf", "__proto__",
   "__defineGetter__", "__defineSetter__", "__lookupGetter__",
   "__lookupSetter__"]

/-- What the badge component renders: when the looked-up `config` is an
inherited function or object rather than a table entry, `config.label` and
`config.class` are JS `undefined`, modelled as `none`. -/
structure RenderedBadge where
  label : Option String
  cls : Option BadgeStyle
deriving Repr, DecidableEq

/-- `RiskBadge` from `DataTable.jsx`: `levels[level] || levels.low`.
JS property access walks the prototype chain: an own key returns its
table entry; a key naming an `Object.prototype` member (for instance
`"constructor"` or `"toString"`) returns that truthy inherited value, so
the `||` fallback is not taken and the badge renders with `undefined`
label and style; only genuinely absent keys yield `undefined` and fall
back to the `low` entry (`null` and `undefined` coerce to the absent
string keys `"null"` and `"undefined"`, hence also fall back). -/
def riskBadge (level : Option String) : RenderedBadge :=
  match level with
  | none => ⟨some "Low", some .success⟩
  | some l =>
    match riskBadgeLevels.find? (fun p => p.1 == l) with
    | some p => ⟨some p.2.label, some p.2.cls⟩
    | none =>
      if l ∈ objectProtoProps then ⟨none, none⟩
      else ⟨some "Low", some .success⟩

/-- `runDetection` seen as a state transformer on the store: fatal errors
leave the stored result set untouched (spec §7: fatal errors return
immediately with no partial run summary). -/
def runDetectionOn (scorer : Scorer) (model : String) (threshold : ℚ)
    (meters : List (String × List Reading)) (store : List AnomalyResult) :
    List AnomalyResult × Except DetectionError RunSummary :=
  match runDetection scorer model threshold meters store with
  | .ok (store2, summary) => (store2, .ok summary)
  | .error e => (store, .error e)

/- ### Concrete scenario used by the witnesses -/

/-- 24 hourly readings of 1 kWh, one full Monday. -/
def wReads : List Reading := (List.range 24).map (fun i => ⟨i, 1⟩)

/-- 5 readings only — below the 24-reading minimum. -/
def wShort : List Reading := (List.range 5).map (fun i => ⟨i, 1⟩)

/-- 24 hourly readings of 0 kWh. -/
def wZero : List Reading := (List.range 24).map (fun i => ⟨i, 0⟩)

/-- A trivially deterministic, length-preserving detector family. -/
def wScorer : Scorer := fun _ vs => vs.map (fun _ => 0)

/-- Two requested meters: one valid, one with insufficient data. -/
def wMeters : List (String × List Reading) := [("m", wReads), ("k", wShort)]

/- ### More helper lemmas -/

theorem foldl_min_mem (rs : List ℚ) (a : ℚ) :
    rs.foldl min a = a ∨ rs.foldl min a ∈ rs := by
  induction rs generalizing a with
  | nil => left; rfl
  | cons r rs ih =>
    have hstep : (r :: rs).foldl min a = rs.foldl min (min a r) := rfl
    rcases ih (min a r) with h | h
    · rcases le_total a r with hle | hle
      · left; rw [hstep, h, min_eq_left hle]
      · right; rw [hstep, h, min_eq_right hle]; exact List.mem_cons_self _ _
    · right; rw [hstep]; exact List.mem_cons_of_mem _ h

theorem foldl_max_mem (rs : List ℚ) (a : ℚ) :
    rs.foldl max a = a ∨ rs.foldl max a ∈ rs := by
  induction rs generalizing a with
  | nil => left; rfl
  | cons r rs ih =>
    have hstep : (r :: rs).foldl max a = rs.foldl max (max a r) := rfl
    rcases ih (max a r) with h | h
    · rcases le_total a r with hle | hle
      · right; rw [hstep, h, max_eq_right hle]; exact List.mem_cons_self _ _
      · left; rw [hstep, h, max_eq_left hle]
    · right; rw [hstep]; exact List.mem_cons_of_mem _ h

theorem batchMin_mem (raw : List ℚ) (hne : raw ≠ []) : batchMin raw ∈ raw := by
  cases raw with
  | nil => exact absurd rfl hne
  | cons r rs =>
    rcases foldl_min_mem rs r with h | h
    · rw [batchMin, h]; exact List.mem_cons_self _ _
    · rw [batchMin]; exact List.mem_cons_of_mem _ h

theorem batchMax_mem (raw : List ℚ) (hne : raw ≠ []) : batchMax raw ∈ raw := by
  cases raw with
  | nil => exact absurd rfl hne
  | cons r rs =>
    rcases foldl_max_mem rs r with h | h
    · rw [batchMax, h]; exact List.mem_cons_self _ _
    · rw [batchMax]; exact List.mem_cons_of_mem _ h

/- ### C1 -/

/-- C1: for every normalized score in [0,1] the risk tier follows the
closed-left bracket table — critical on [0.75, 1], high on [0.50, 0.75),
medium on [0.25, 0.50), low on [0, 0.25) — so the boundary values 0.25,
0.50 and 0.75 land in the higher tier. -/
theorem classifyRisk_brackets (s : ℚ) (h0 : 0 ≤ s) (h1 : s ≤ 1) :
    (classifyRisk s = RiskLevel.critical ↔ 3/4 ≤ s ∧ s ≤ 1) ∧
    (classifyRisk s = RiskLevel.high ↔ 1/2 ≤ s ∧ s < 3/4) ∧
    (classifyRisk s = RiskLevel.medium ↔ 1/4 ≤ s ∧ s < 1/2) ∧
    (classifyRisk s = RiskLevel.low ↔ 0 ≤ s ∧ s < 1/4) := by
  unfold classifyRisk
  split_ifs with hc hh hm <;>
    refine ⟨?_, ?_, ?_, ?_⟩ <;> simp <;>
    first
      | (exact ⟨by linarith, by linarith⟩)
      | (intro a; linarith)

/-- C1 witness: the boundary score 0.5 is classified `high`. -/
theorem classifyRisk_brackets_witness :
    classifyRisk (1/2 : ℚ) = RiskLevel.high :=
  ((classifyRisk_brackets (1/2) (by norm_num) (by norm_num)).2.1).mpr
    (by norm_num)

/- ### C4 -/

/-- C4: the normalizer maps the batch minimum to 0, the batch maximum to 1
and every other raw score by linear interpolation between them; a
singleton batch, and more generally a batch whose raw scores are all
equal, normalizes to 0.0 everywhere with no division by zero. -/
theorem normalizeScores_minmax :
    (∀ x : ℚ, normalizeScores [x] = [0]) ∧
    (∀ raw : List ℚ, (∀ x ∈ raw, ∀ y ∈ raw, x = y) →
      normalizeScores raw = raw.map (fun _ => 0)) ∧
    (∀ raw : List ℚ, batchMin raw ≠ batchMax raw →
      normalizeScores raw =
        raw.map (fun x => (x - batchMin raw) / (batchMax raw - batchMin raw))) ∧
    (∀ raw : List ℚ, batchMin raw ≠ batchMax raw →
      (0 : ℚ) ∈ normalizeScores raw ∧ (1 : ℚ) ∈ normalizeScores raw) := by
  have hlin : ∀ raw : List ℚ, batchMin raw ≠ batchMax raw →
      normalizeScores raw =
        raw.map (fun x => (x - batchMin raw) / (batchMax raw - batchMin raw)) := by
    intro raw h
    unfold normalizeScores
    rw [if_neg (Ne.symm h)]
  refine ⟨?_, ?_, hlin, ?_⟩
  · intro x
    unfold normalizeScores batchMin batchMax
    simp
  · intro raw h
    cases raw with
    | nil => rfl
    | cons r rs =>
      have hmn := batchMin_mem (r :: rs) (List.cons_ne_nil r rs)
      have hmx := batchMax_mem (r :: rs) (List.cons_ne_nil r rs)
      have heq : batchMax (r :: rs) = batchMin (r :: rs) :=
        h _ hmx _ hmn
      unfold normalizeScores
      rw [if_pos heq]
  · intro raw h
    have hne : raw ≠ [] := by
      intro e
      subst e
      exact h rfl
    have hd : batchMax raw - batchMin raw ≠ 0 :=
      sub_ne_zero.mpr (Ne.symm h)
    rw [hlin raw h]
    constructor
    · exact List.mem_map.mpr
        ⟨batchMin raw, batchMin_mem raw hne, by rw [sub_self, zero_div]⟩
    · exact List.mem_map.mpr
        ⟨batchMax raw, batchMax_mem raw hne, div_self hd⟩

/-- C4 witness: on the batch `[1, 3]` the minimum is sent to 0 and the
maximum to 1. -/
theorem normalizeScores_minmax_witness :
    (0 : ℚ) ∈ normalizeScores [1, 3] ∧ (1 : ℚ) ∈ normalizeScores [1, 3] :=
  normalizeScores_minmax.2.2.2 [1, 3]
    (by norm_num [batchMin, batchMax, min_def, max_def])

/- ### C6 -/

/-- C6: a model identifier outside `{isolation_forest, autoencoder}` makes
the run fail with `UnknownModelError` before any per-meter work: the stored
result set is returned unchanged and no result is written. -/
theorem unknownModel_fails (scorer : Scorer) (model : String) (t : ℚ)
    (meters : List (String × List Reading)) (store : List AnomalyResult)
    (h : knownModels.contains model = false) :
    runDetectionOn scorer model t meters store =
      (store, .error .unknownModel) := by
  unfold runDetectionOn runDetection
  have h2 : ¬ (model ∈ knownModels) := by simpa using h
  simp [h2]

/-- C6 witness: `RunDetection(model = "random_forest")` fails with
`UnknownModelError` and leaves the store unchanged. -/
theorem unknownModel_fails_witness :
    runDetectionOn wScorer "random_forest" defaultThreshold wMeters [] =
      ([], .error .unknownModel) :=
  unknownModel_fails wScorer "random_forest" defaultThreshold wMeters [] rfl

/- ### C9 -/

/-- C9: `GetResults` with no arguments reads with `suspicious_only = false`
and `limit = 100`; with `suspicious_only = true` it returns only results
whose suspicious flag is set, and it never returns more than `limit`
results. -/
theorem getResults_spec (store : List AnomalyResult) (limit : Nat) :
    getResultsDefault store = getResults store false 100 ∧
    (∀ r ∈ getResults store true limit, r.is_suspicious = true) ∧
    (∀ so : Bool, (getResults store so limit).length ≤ limit) := by
  refine ⟨rfl, ?_, ?_⟩
  · intro r hr
    unfold getResults at hr
    rw [if_pos rfl] at hr
    exact List.of_mem_filter (List.mem_of_mem_take hr)
  · intro so
    unfold getResults
    cases so <;> simp [List.length_take]

/-- C9 witness: on a concrete two-result store, the suspicious-only read
returns a result with the flag set and respects the limit. -/
theorem getResults_spec_witness :
    (AnomalyResult.mk "a" 1 .critical true "x" "isolation_forest").is_suspicious
        = true ∧
    (getResults
      [AnomalyResult.mk "a" 1 .critical true "x" "isolation_forest",
       AnomalyResult.mk "b" 0 .low false "y" "isolation_forest"]
      true 5).length ≤ 5 :=
  ⟨(getResults_spec
      [AnomalyResult.mk "a" 1 .critical true "x" "isolation_forest",
       AnomalyResult.mk "b" 0 .low false "y" "isolation_forest"] 5).2.1
      _ (by simp [getResults]),
   (getResults_spec
      [AnomalyResult.mk "a" 1 .critical true "x" "isolation_forest",
       AnomalyResult.mk "b" 0 .low false "y" "isolation_forest"] 5).2.2 true⟩

/- ### C10 -/

/-- C10 counterexample: `"constructor"` lies outside the four known keys,
yet the badge rendered for it is not the `Low`/success badge — the JS
lookup finds the truthy `Object.prototype` constructor, the `||` fallback
is not taken, and label and style render as `undefined`. -/
theorem riskBadge_fallback_refuted :
    ("constructor" ∉ riskBadgeLevels.map Prod.fst) ∧
    riskBadge (some "constructor") ≠
      RenderedBadge.mk (some "Low") (some BadgeStyle.success) ∧
    riskBadge (some "constructor") = RenderedBadge.mk none none := by
  decide

/-- C10 (amended): the four known keys render their matching label and
style; `null`, `undefined` and every string that is neither a known key
nor an `Object.prototype` property name fall back to the `Low`/success
badge; a string naming an `Object.prototype` member is looked up truthy,
so no fallback occurs and the badge renders with `undefined` label and
style. -/
theorem riskBadge_proto_fallback :
    (riskBadge none = ⟨some "Low", some .success⟩) ∧
    (riskBadge (some "critical") = ⟨some "Critical", some .danger⟩) ∧
    (riskBadge (some "high") = ⟨some "High", some .danger⟩) ∧
    (riskBadge (some "medium") = ⟨some "Medium", some .warning⟩) ∧
    (riskBadge (some "low") = ⟨some "Low", some .success⟩) ∧
    (∀ l : String, (∀ p ∈ riskBadgeLevels, p.1 ≠ l) →
      l ∉ objectProtoProps →
      riskBadge (some l) = ⟨some "Low", some .success⟩) ∧
    (∀ l : String, l ∈ objectProtoProps →
      riskBadge (some l) = ⟨none, none⟩) := by
  refine ⟨rfl, rfl, rfl, rfl, rfl, ?_, ?_⟩
  · intro l h1 h2
    have hf : riskBadgeLevels.find? (fun p => p.1 == l) = none := by
      rw [List.find?_eq_none]
      intro p hp
      simpa using h1 p hp
    simp [riskBadge, hf, h2]
  · intro l hl
    fin_cases hl <;> decide

/-- C10 witness: an unknown string that is not a prototype property name
renders as the `Low`/success badge. -/
theorem riskBadge_proto_fallback_witness :
    riskBadge (some "banana") = ⟨some "Low", some .success⟩ :=
  riskBadge_proto_fallback.2.2.2.2.2.1 "banana" (by decide) (by decide)

/- ### C8 -/

/-- C8: a meter whose readings carry zero total consumption extracts with
`night_ratio = peak_ratio = weekend_ratio = 0` — no division by zero and no
error (in this exact-rational model no NaN exists at all). -/
theorem zero_consumption_ratios (rs : List Reading)
    (hmin : minReadings ≤ rs.length) (htot : totalConsumption rs = 0) :
    ∃ fv, extractFeatures rs = .ok fv ∧
      fv.night_ratio = 0 ∧ fv.peak_ratio = 0 ∧ fv.weekend_ratio = 0 := by
  unfold extractFeatures
  rw [if_neg (by omega)]
  refine ⟨_, rfl, ?_, ?_, ?_⟩ <;> simp [consumptionRatio, htot]

/-- C8 witness: 24 all-zero readings extract successfully with all three
ratios equal to 0. -/
theorem zero_consumption_ratios_witness :
    ∃ fv, extractFeatures wZero = .ok fv ∧
      fv.night_ratio = 0 ∧ fv.peak_ratio = 0 ∧ fv.weekend_ratio = 0 :=
  zero_consumption_ratios wZero (by with_unfolding_all decide)
    (by with_unfolding_all rfl)

/- ### C2 -/

/-- C2: every scored meter's suspicious flag holds exactly when its
normalized score is at least the run threshold (which defaults to 0.5),
and the flag is decoupled from the tier brackets: under any threshold
above 0.75, a score in the `high` bracket is not flagged. -/
theorem suspicious_flag_spec :
    (∀ (scorer : Scorer) (model : String) (t : ℚ) meters r,
      r ∈ runResults scorer model t meters →
      (r.is_suspicious = true ↔ t ≤ r.anomaly_score)) ∧
    defaultThreshold = 1/2 ∧
    (∀ t s : ℚ, 3/4 < t → 1/2 ≤ s → s < 3/4 →
      classifyRisk s = RiskLevel.high ∧ isSuspicious s t = false) := by
  refine ⟨?_, rfl, ?_⟩
  · intro scorer model t meters r hr
    unfold runResults at hr
    obtain ⟨p, hp, hpr⟩ := List.mem_map.mp hr
    subst hpr
    simp [mkResult, isSuspicious]
  · intro t s h1 h2 h3
    constructor
    · unfold classifyRisk
      rw [if_neg (by linarith), if_pos h2]
    · simp only [isSuspicious, decide_eq_false_iff_not, not_le]
      linarith

/-- C2 witness: in a concrete run with threshold 0.8, the scored result's
flag agrees with the threshold comparison; and the concrete score 0.6 sits
in the `high` tier yet is not flagged under threshold 0.8. -/
theorem suspicious_flag_spec_witness :
    ((mkResult "isolation_forest" (4/5) "m" 0).is_suspicious = true ↔
      (4/5 : ℚ) ≤ (mkResult "isolation_forest" (4/5) "m" 0).anomaly_score) ∧
    (classifyRisk (3/5 : ℚ) = RiskLevel.high ∧
      isSuspicious (3/5) (4/5) = false) :=
  ⟨suspicious_flag_spec.1 wScorer "isolation_forest" (4/5) [("m", wReads)] _
      (by with_unfolding_all decide),
   suspicious_flag_spec.2.2 (4/5) (3/5) (by norm_num) (by norm_num)
      (by norm_num)⟩

/- ### Store and orchestrator helper lemmas -/

theorem mem_upsert (store : List AnomalyResult) (x r : AnomalyResult)
    (h : r ∈ upsert store x) : r = x ∨ r ∈ store := by
  unfold upsert at h
  rcases List.mem_cons.mp h with h | h
  · exact Or.inl h
  · exact Or.inr (List.mem_of_mem_filter h)

theorem mem_upsertAll (R : List AnomalyResult) :
    ∀ (store : List AnomalyResult) (r : AnomalyResult),
      r ∈ upsertAll store R → r ∈ store ∨ r ∈ R := by
  induction R with
  | nil => intro store r h; exact Or.inl h
  | cons x R ih =>
    intro store r h
    rcases ih (upsert store x) r h with h2 | h2
    · rcases mem_upsert store x r h2 with h3 | h3
      · exact Or.inr (h3 ▸ List.mem_cons_self x R)
      · exact Or.inl h3
    · exact Or.inr (List.mem_cons_of_mem x h2)

theorem runResults_score_mem (scorer : Scorer) (model : String) (t : ℚ)
    (meters : List (String × List Reading)) (r : AnomalyResult)
    (hr : r ∈ runResults scorer model t meters) :
    r.anomaly_score ∈
      normalizeScores (scorer model ((validMeters meters).map Prod.snd)) := by
  unfold runResults at hr
  obtain ⟨p, hp, hpr⟩ := List.mem_map.mp hr
  subst hpr
  obtain ⟨q, c⟩ := p
  exact (List.of_mem_zip hp).2

/-- Extract the new store from a successful run. -/
theorem runDetection_ok_store (scorer : Scorer) (model : String) (t : ℚ)
    (meters : List (String × List Reading))
    (store store2 : List AnomalyResult) (summary : RunSummary)
    (h : runDetection scorer model t meters store = .ok (store2, summary)) :
    store2 = upsertAll store (runResults scorer model t meters) ∧
    summary = ⟨(validMeters meters).length,
      ((runResults scorer model t meters).filter
        (fun r => r.is_suspicious)).length⟩ := by
  unfold runDetection at h
  split_ifs at h with h1 h2 h3
  obtain ⟨hs, hsum⟩ := Prod.mk.injEq .. ▸ Except.ok.injEq .. ▸ h
  exact ⟨hs.symm, hsum.symm⟩

/- ### C3 -/

theorem mem_getResults (store : List AnomalyResult) (so : Bool)
    (lim : Nat) (r : AnomalyResult) (h : r ∈ getResults store so lim) :
    r ∈ store := by
  unfold getResults at h
  have h2 := List.mem_of_mem_take h
  cases so with
  | false => exact h2
  | true => exact List.mem_of_mem_filter h2

/-- C3: every result written by a detection run carries an anomaly score in
[0,1]; a run over a store satisfying this invariant preserves it, and
reads return only stored results, so no operation ever stores or returns a
result with a score below 0 or above 1. -/
theorem anomaly_score_in_unit (scorer : Scorer) (model : String) (t : ℚ)
    (meters : List (String × List Reading))
    (store store2 : List AnomalyResult) (summary : RunSummary)
    (hstore : ∀ r ∈ store, 0 ≤ r.anomaly_score ∧ r.anomaly_score ≤ 1)
    (hrun : runDetection scorer model t meters store = .ok (store2, summary)) :
    (∀ r ∈ store2, 0 ≤ r.anomaly_score ∧ r.anomaly_score ≤ 1) ∧
    (∀ (so : Bool) (lim : Nat) r, r ∈ getResults store2 so lim →
      0 ≤ r.anomaly_score ∧ r.anomaly_score ≤ 1) := by
  have hall : ∀ r ∈ store2, 0 ≤ r.anomaly_score ∧ r.anomaly_score ≤ 1 := by
    obtain ⟨hs, -⟩ :=
      runDetection_ok_store scorer model t meters store store2 summary hrun
    subst hs
    intro r hr
    rcases mem_upsertAll _ store r hr with h | h
    · exact hstore r h
    · exact normalizeScores_mem_unit _ _
        (runResults_score_mem scorer model t meters r h)
  exact ⟨hall, fun so lim r hr => hall r (mem_getResults store2 so lim r hr)⟩

/-- C3 witness: the single result of a concrete successful run has its
score inside [0,1]. -/
theorem anomaly_score_in_unit_witness :
    0 ≤ (mkResult "isolation_forest" defaultThreshold "m" 0).anomaly_score ∧
    (mkResult "isolation_forest" defaultThreshold "m" 0).anomaly_score ≤ 1 :=
  (anomaly_score_in_unit wScorer "isolation_forest" defaultThreshold wMeters
    [] [mkResult "isolation_forest" defaultThreshold "m" 0] ⟨1, 0⟩
    (by simp) (by with_unfolding_all rfl)).1
    (mkResult "isolation_forest" defaultThreshold "m" 0)
    (List.mem_singleton.mpr rfl)

/- ### Feature-extraction gate helper lemmas -/

theorem extractFeatures_error_iff (rs : List Reading) :
    extractFeatures rs = .error .insufficientData ↔
      rs.length < minReadings := by
  unfold extractFeatures
  split_ifs with h <;> simp [h]

theorem extractFeatures_isOk (rs : List Reading)
    (h : minReadings ≤ rs.length) : ∃ fv, extractFeatures rs = .ok fv := by
  unfold extractFeatures
  rw [if_neg (by omega)]
  exact ⟨_, rfl⟩

theorem nodup_key_eq {l : List (String × List Reading)}
    (h : (l.map Prod.fst).Nodup) {a : String} {b c : List Reading}
    (h1 : (a, b) ∈ l) (h2 : (a, c) ∈ l) : b = c := by
  induction l with
  | nil => cases h1
  | cons p l ih =>
    rw [List.map_cons, List.nodup_cons] at h
    rcases List.mem_cons.mp h1 with e1 | m1 <;>
      rcases List.mem_cons.mp h2 with e2 | m2
    · have e := e1.trans e2.symm
      exact (Prod.mk.injEq .. ▸ e).2
    · exact absurd
        (show p.1 ∈ l.map Prod.fst by
          have ep : p.1 = a := by rw [← e1]
          rw [ep]
          exact List.mem_map_of_mem Prod.fst m2) h.1
    · exact absurd
        (show p.1 ∈ l.map Prod.fst by
          have ep : p.1 = a := by rw [← e2]
          rw [ep]
          exact List.mem_map_of_mem Prod.fst m1) h.1
    · exact ih h.2 m1 m2

theorem mem_validMeters_of {meters : List (String × List Reading)}
    {id : String} {rs : List Reading} (hmem : (id, rs) ∈ meters)
    {fv : FeatureVector} (hok : extractFeatures rs = .ok fv) :
    (id, fv) ∈ validMeters meters :=
  List.mem_filterMap.mpr ⟨(id, rs), hmem, by simp [hok]⟩

theorem mem_validMeters_elim {meters : List (String × List Reading)}
    {id : String} {fv : FeatureVector}
    (h : (id, fv) ∈ validMeters meters) :
    ∃ rs, (id, rs) ∈ meters ∧ extractFeatures rs = .ok fv := by
  obtain ⟨p, hp, he⟩ := List.mem_filterMap.mp h
  revert he
  cases hx : extractFeatures p.2 with
  | error e => intro he; cases he
  | ok fv2 =>
    intro he
    obtain ⟨e1, e2⟩ := Prod.mk.injEq .. ▸ Option.some.injEq .. ▸ he
    exact ⟨p.2, by rw [← e1]; exact hp, by rw [hx, e2]⟩

theorem validMeters_ids_sublist (meters : List (String × List Reading)) :
    List.Sublist ((validMeters meters).map Prod.fst)
      (meters.map Prod.fst) := by
  induction meters with
  | nil => simp [validMeters]
  | cons p l ih =>
    unfold validMeters at *
    rw [List.filterMap_cons]
    cases hx : extractFeatures p.2 with
    | error e =>
      simp only [hx]
      exact List.Sublist.cons p.1 ih
    | ok fv =>
      simp only [hx, List.map_cons]
      exact List.Sublist.cons₂ p.1 ih

theorem validMeters_length (meters : List (String × List Reading)) :
    (validMeters meters).length =
      (meters.filter (fun p => minReadings ≤ p.2.length)).length := by
  induction meters with
  | nil => rfl
  | cons p l ih =>
    unfold validMeters at *
    rw [List.filterMap_cons, List.filter_cons]
    by_cases h : p.2.length < minReadings
    · have he : extractFeatures p.2 = .error .insufficientData :=
        (extractFeatures_error_iff p.2).mpr h
      rw [he, if_neg (by simp; omega)]
      exact ih
    · obtain ⟨fv, hok⟩ := extractFeatures_isOk p.2 (by omega)
      rw [hok, if_pos (by simp; omega), List.length_cons, ih,
        List.length_cons]

theorem runResults_ids (scorer : Scorer)
    (hlen : ∀ m vs, (scorer m vs).length = vs.length)
    (model : String) (t : ℚ) (meters : List (String × List Reading)) :
    (runResults scorer model t meters).map AnomalyResult.meter_id =
      (validMeters meters).map Prod.fst := by
  unfold runResults
  rw [List.map_map]
  have he : (AnomalyResult.meter_id ∘
        fun p : (String × FeatureVector) × ℚ =>
          mkResult model t p.1.1 p.2) =
      (Prod.fst ∘ (Prod.fst :
        (String × FeatureVector) × ℚ → String × FeatureVector)) := rfl
  rw [he, ← List.map_map, List.map_fst_zip]
  rw [normalizeScores_length, hlen, List.length_map]

theorem filter_id_length_count (id : String) (l : List AnomalyResult) :
    (l.filter (fun r => r.meter_id == id)).length =
      (l.map AnomalyResult.meter_id).count id := by
  induction l with
  | nil => rfl
  | cons r l ih =>
    rw [List.filter_cons, List.map_cons, List.count_cons]
    by_cases h : r.meter_id = id
    · rw [if_pos (by simp [h]), if_pos (by simp [h]), List.length_cons, ih]
    · rw [if_neg (by simp [h]), if_neg (by simp [h]), ih]
      omega

theorem runResults_filter_length_one (scorer : Scorer)
    (hlen : ∀ m vs, (scorer m vs).length = vs.length)
    (model : String) (t : ℚ) (meters : List (String × List Reading))
    (hnodup : (meters.map Prod.fst).Nodup)
    (id : String) (rs : List Reading) (hmem : (id, rs) ∈ meters)
    (hvalid : minReadings ≤ rs.length) :
    ((runResults scorer model t meters).filter
      (fun r => r.meter_id == id)).length = 1 := by
  rw [filter_id_length_count, runResults_ids scorer hlen model t meters]
  obtain ⟨fv, hok⟩ := extractFeatures_isOk rs hvalid
  have hidmem : id ∈ (validMeters meters).map Prod.fst :=
    List.mem_map_of_mem Prod.fst (mem_validMeters_of hmem hok)
  exact List.count_eq_one_of_mem
    (hnodup.sublist (validMeters_ids_sublist meters)) hidmem

/- ### C5 -/

/-- C5: a meter with fewer than the 24-reading minimum fails feature
extraction with `InsufficientDataError`, is excluded from
`meters_analyzed` and produces no result; a meter at or above the minimum
produces exactly one result per run, and `meters_analyzed` counts exactly
the meters meeting the minimum. -/
theorem min_readings_gate (scorer : Scorer)
    (hlen : ∀ m vs, (scorer m vs).length = vs.length)
    (model : String) (t : ℚ) (meters : List (String × List Reading))
    (hnodup : (meters.map Prod.fst).Nodup)
    (id : String) (rs : List Reading) (hmem : (id, rs) ∈ meters) :
    (rs.length < minReadings →
      extractFeatures rs = Except.error FeatureError.insufficientData ∧
      ∀ r ∈ runResults scorer model t meters, r.meter_id ≠ id) ∧
    (minReadings ≤ rs.length →
      ((runResults scorer model t meters).filter
        (fun r => r.meter_id == id)).length = 1) ∧
    (∀ store store2 summary,
      runDetection scorer model t meters store = .ok (store2, summary) →
      summary.meters_analyzed =
        (meters.filter (fun p => minReadings ≤ p.2.length)).length) := by
  refine ⟨?_, ?_, ?_⟩
  · intro hshort
    refine ⟨(extractFeatures_error_iff rs).mpr hshort, ?_⟩
    intro r hr he
    have hidmem : r.meter_id ∈ (validMeters meters).map Prod.fst := by
      rw [← runResults_ids scorer hlen model t meters]
      exact List.mem_map_of_mem AnomalyResult.meter_id hr
    obtain ⟨q, hq, hq1⟩ := List.mem_map.mp hidmem
    obtain ⟨q1, q2⟩ := q
    have hq2 : (id, q2) ∈ validMeters meters := by
      have e : q1 = id := hq1.trans he
      rwa [e] at hq
    obtain ⟨rs2, hmem2, hok2⟩ := mem_validMeters_elim hq2
    have hrs : rs2 = rs := nodup_key_eq hnodup hmem2 hmem
    rw [hrs, (extractFeatures_error_iff rs).mpr hshort] at hok2
    cases hok2
  · intro hvalid
    exact runResults_filter_length_one scorer hlen model t meters hnodup
      id rs hmem hvalid
  · intro store store2 summary hrun
    obtain ⟨-, hsum⟩ :=
      runDetection_ok_store scorer model t meters store store2 summary hrun
    rw [hsum]
    exact validMeters_length meters

/-- C5 witness: in the concrete two-meter run, the 5-reading meter fails
extraction and yields no result, while the 24-reading meter yields exactly
one. -/
theorem min_readings_gate_witness :
    (extractFeatures wShort = Except.error FeatureError.insufficientData ∧
      ∀ r ∈ runResults wScorer "isolation_forest" defaultThreshold wMeters,
        r.meter_id ≠ "k") ∧
    ((runResults wScorer "isolation_forest" defaultThreshold wMeters).filter
      (fun r => r.meter_id == "m")).length = 1 :=
  ⟨(min_readings_gate wScorer (fun m vs => by simp [wScorer])
      "isolation_forest" defaultThreshold wMeters
      (by with_unfolding_all decide) "k" wShort
      (by with_unfolding_all decide)).1 (by with_unfolding_all decide),
   (min_readings_gate wScorer (fun m vs => by simp [wScorer])
      "isolation_forest" defaultThreshold wMeters
      (by with_unfolding_all decide) "m" wReads
      (by with_unfolding_all decide)).2.1 (by with_unfolding_all decide)⟩

/- ### Upsert-overwrite helper lemmas -/

theorem filter_upsert_self (store : List AnomalyResult) (r : AnomalyResult)
    (id : String) (h : r.meter_id = id) :
    (upsert store r).filter (fun x => x.meter_id == id) = [r] := by
  unfold upsert
  rw [List.filter_cons, if_pos (by simp [h])]
  have hnil : (store.filter (fun s => s.meter_id ≠ r.meter_id)).filter
      (fun x => x.meter_id == id) = [] := by
    rw [List.filter_eq_nil_iff]
    intro a ha
    have hq := List.of_mem_filter ha
    simp only [decide_eq_true_eq] at hq
    simp only [beq_iff_eq]
    intro e
    exact hq (e.trans h.symm)
  rw [hnil]

theorem filter_upsert_other (store : List AnomalyResult) (r : AnomalyResult)
    (id : String) (h : r.meter_id ≠ id) :
    (upsert store r).filter (fun x => x.meter_id == id) =
      store.filter (fun x => x.meter_id == id) := by
  unfold upsert
  rw [List.filter_cons, if_neg (by simp [h]), List.filter_filter]
  apply List.filter_congr
  intro a ha
  by_cases hc : a.meter_id = id
  · have hne : a.meter_id ≠ r.meter_id := by
      rw [hc]
      intro e
      exact h e.symm
    simp [hc, hne]
    intro e
    exact h e.symm
  · simp [hc]

theorem filter_upsertAll_of_none (R : List AnomalyResult) :
    ∀ (store : List AnomalyResult) (id : String),
      (∀ r ∈ R, r.meter_id ≠ id) →
      (upsertAll store R).filter (fun x => x.meter_id == id) =
        store.filter (fun x => x.meter_id == id) := by
  induction R with
  | nil => intro store id _; rfl
  | cons r R ih =>
    intro store id h
    have hstep : upsertAll store (r :: R) = upsertAll (upsert store r) R := rfl
    rw [hstep, ih (upsert store r) id
      (fun x hx => h x (List.mem_cons_of_mem r hx))]
    exact filter_upsert_other store r id (h r (List.mem_cons_self r R))

theorem filter_upsertAll_single (R : List AnomalyResult) :
    ∀ (store : List AnomalyResult) (id : String) (r : AnomalyResult),
      R.filter (fun x => x.meter_id == id) = [r] →
      (upsertAll store R).filter (fun x => x.meter_id == id) = [r] := by
  induction R with
  | nil => intro store id r h; cases h
  | cons r2 R ih =>
    intro store id r h
    have hstep : upsertAll store (r2 :: R) = upsertAll (upsert store r2) R :=
      rfl
    rw [List.filter_cons] at h
    by_cases hc : r2.meter_id = id
    · rw [if_pos (by simp [hc])] at h
      obtain ⟨e1, e2⟩ := List.cons.injEq .. ▸ h
      have hnone : ∀ x ∈ R, x.meter_id ≠ id := by
        intro x hx e
        have hxf : x ∈ R.filter (fun y => y.meter_id == id) :=
          List.mem_filter.mpr ⟨hx, by simp [e]⟩
        rw [e2] at hxf
        cases hxf
      rw [hstep, filter_upsertAll_of_none R (upsert store r2) id hnone,
        filter_upsert_self store r2 id hc, e1]
    · rw [if_neg (by simp [hc])] at h
      rw [hstep]
      exact ih (upsert store r2) id r h

/- ### C7 -/

/-- C7: detection runs overwrite per meter (latest wins): after two
successive runs over the same meter set with different thresholds, each
valid meter has exactly one current result, equal to the second run's
result for that meter — never two. -/
theorem overwrite_latest_wins (scorer : Scorer)
    (hlen : ∀ m vs, (scorer m vs).length = vs.length)
    (model : String) (t1 t2 : ℚ) (meters : List (String × List Reading))
    (store s1 s2 : List AnomalyResult) (sum1 sum2 : RunSummary)
    (hnodup : (meters.map Prod.fst).Nodup)
    (_h1 : runDetection scorer model t1 meters store = .ok (s1, sum1))
    (h2 : runDetection scorer model t2 meters s1 = .ok (s2, sum2))
    (id : String) (rs : List Reading) (hmem : (id, rs) ∈ meters)
    (hvalid : minReadings ≤ rs.length) :
    s2.filter (fun r => r.meter_id == id) =
      (runResults scorer model t2 meters).filter
        (fun r => r.meter_id == id) ∧
    (s2.filter (fun r => r.meter_id == id)).length = 1 := by
  obtain ⟨hs, -⟩ :=
    runDetection_ok_store scorer model t2 meters s1 s2 sum2 h2
  have hone : ((runResults scorer model t2 meters).filter
      (fun r => r.meter_id == id)).length = 1 :=
    runResults_filter_length_one scorer hlen model t2 meters hnodup
      id rs hmem hvalid
  obtain ⟨r2, hr2⟩ := List.length_eq_one.mp hone
  have hs2 : s2.filter (fun r => r.meter_id == id) = [r2] := by
    rw [hs]
    exact filter_upsertAll_single _ s1 id r2 hr2
  refine ⟨?_, ?_⟩
  · rw [hs2, hr2]
  · rw [hs2]
    rfl

/-- C7 witness: two successive concrete runs with thresholds 0.5 then 0.25
leave exactly one result for meter `m`, the second run's. -/
theorem overwrite_latest_wins_witness :
    (([mkResult "isolation_forest" (1/4) "m" 0].filter
        (fun r => r.meter_id == "m")) =
      (runResults wScorer "isolation_forest" (1/4) wMeters).filter
        (fun r => r.meter_id == "m")) ∧
    (([mkResult "isolation_forest" (1/4) "m" 0].filter
        (fun r => r.meter_id == "m")).length = 1) :=
  overwrite_latest_wins wScorer (fun m vs => by simp [wScorer])
    "isolation_forest" (1/2) (1/4) wMeters []
    [mkResult "isolation_forest" (1/2) "m" 0]
    [mkResult "isolation_forest" (1/4) "m" 0] ⟨1, 0⟩ ⟨1, 0⟩
    (by with_unfolding_all decide)
    (by with_unfolding_all rfl) (by with_unfolding_all rfl)
    "m" wReads (by with_unfolding_all decide)
    (by with_unfolding_all decide)

end PowerGuard
